import Mathlib

/-!
# SquishableSponge: particle pool, emission, integration and render bridge

A shallow embedding of the particle core of `src/main.cpp` (the render loop of `main`)
and the properties of it that the specification states.

Modelling conventions.

* `float` / `double` values are rational numbers and arithmetic is exact.
* `std::array<Particle, MAX_PARTICLES> ParticlePool` is a function from slot index to
  `Particle`; only the indices below `MAX_PARTICLES` are slots of the pool.  The float
  buffer behind `Buffers[ParticleVBO]` is a function from float index to value; only the
  indices below `2 * MAX_PARTICLES` belong to the buffer.
* Every `for` loop of the source is a recursive function on the loop variable `i`; the
  loop condition is the first test of the body, so the function is total.
* The windowing library is the source of the per-frame `Input`: the key and button
  states, the cursor position, the window size, the frame time and the values returned
  by `rand()`.
* `abs` at line 425 is the absolute value of the `float` argument.
-/

set_option autoImplicit false

namespace SquishableSponge

/-! ## Data model (lines 14-26) -/

/-- The pool capacity, line 14. -/
def MAX_PARTICLES : Nat := 999

/-- A `glm::vec2`. -/
structure Vec2 where
  x : ℚ
  y : ℚ
deriving DecidableEq

/-- The record `struct Particle`, lines 22-26. -/
structure Particle where
  position : Vec2
  velocity : Vec2
  active : Bool
deriving DecidableEq

/-- The pool `std::array<Particle, MAX_PARTICLES>`, addressed by slot index. -/
abbrev Pool := Nat → Particle

/-- The float contents of a buffer or mapped range, addressed by float index. -/
abbrev FloatBuffer := Nat → ℚ

/-- The assignment `ParticlePool[i] = p` (all fields of slot `i` stored at once). -/
def setSlot (pool : Pool) (i : Nat) (p : Particle) : Pool :=
  fun j => if j = i then p else pool j

/-- The assignment `mapped[k] = v`. -/
def setFloat (buf : FloatBuffer) (k : Nat) (v : ℚ) : FloatBuffer :=
  fun j => if j = k then v else buf j

/-! ## Constants of the windowing library (GLFW/glfw3.h) -/

/-- The value of `GLFW_PRESS` in the header of the windowing library. -/
def GLFW_PRESS : Int := 1

/-- The value of `GLFW_MOUSE_BUTTON_LEFT` in the header of the windowing library. -/
def GLFW_MOUSE_BUTTON_LEFT : Int := 0

/-- The value of `GLFW_KEY_UP` in the header of the windowing library. -/
def GLFW_KEY_UP : Int := 265

/-- The value of `GLFW_KEY_DOWN` in the header of the windowing library. -/
def GLFW_KEY_DOWN : Int := 264

/-! ## Frame input and simulation state -/

/-- What one iteration of the render loop reads from outside the program. -/
structure Input where
  /-- The value `glfwGetTime() - lastTime` of line 290. -/
  deltaTime : ℚ
  /-- The function `glfwGetKey(window, ·)`. -/
  getKey : Int → Int
  /-- The function `glfwGetMouseButton(window, ·)`. -/
  getMouseButton : Int → Int
  /-- The screen-space cursor position written by `glfwGetCursorPos`, line 313. -/
  cursorXPos : ℚ
  cursorYPos : ℚ
  /-- The window size written by `glfwGetWindowSize`, line 315. -/
  width : Int
  height : Int
  /-- The value `(float)rand() / RAND_MAX` of the k-th call of `rand()` in this frame. -/
  rand01 : Nat → ℚ

/-- The variables that live across iterations of the render loop, lines 199 and 280-285,
together with the contents of the particle positions buffer. -/
structure State where
  ParticlePool : Pool
  particleVBO : FloatBuffer
  isWet : Bool
  wasClicking : Bool
  waterLevel : ℚ
  cursorWasUnderWater : Bool

/-- A particle draw submission `glDrawArrays(GL_POINTS, first, count)`. -/
structure PointDraw where
  first : Nat
  count : Nat
deriving DecidableEq

/-! ## Frame driver: water level and cursor (lines 298-319) -/

/-- The constant `step`, line 281. -/
def step : ℚ := 0.25

/-- Water level after the key handling of lines 299-311. -/
def updateWaterLevel (inp : Input) (waterLevel : ℚ) : ℚ :=
  let w1 :=
    if inp.getKey GLFW_KEY_UP = GLFW_PRESS then
      let w := waterLevel + step * inp.deltaTime
      if w > 1 then 1 else w
    else waterLevel
  if inp.getKey GLFW_KEY_DOWN = GLFW_PRESS then
    let w := w1 - step * inp.deltaTime
    if w < 0 then 0 else w
  else w1

/-- The cursor in viewport space, lines 318-319. -/
def cursor (inp : Input) : Vec2 :=
  ⟨(inp.cursorXPos / inp.width) * 2 - 1, (inp.cursorYPos / inp.height) * (-2) + 1⟩

/-- The condition of line 331: the button polled is the value of the comparison
`GLFW_MOUSE_BUTTON_LEFT == GLFW_PRESS`, and the branch is taken when the call returns
a nonzero value. -/
def mouseCondition (inp : Input) : Bool :=
  decide (inp.getMouseButton (if GLFW_MOUSE_BUTTON_LEFT = GLFW_PRESS then 1 else 0) ≠ 0)

/-- The left mouse button is down. -/
def leftButtonDown (inp : Input) : Prop :=
  inp.getMouseButton GLFW_MOUSE_BUTTON_LEFT = GLFW_PRESS

instance (inp : Input) : Decidable (leftButtonDown inp) := by
  unfold leftButtonDown; infer_instance

/-! ## Emission (lines 336-352 and 364-380) -/

/-- Initial velocity of a click-splash particle, lines 344-347; `r` is the number of
calls of `rand()` made earlier in the frame. -/
def clickVelocity (rand01 : Nat → ℚ) (r : Nat) : Vec2 :=
  let velocityXJitter := rand01 r * 8 - 4
  let velocityYJitter := rand01 (r + 1) * 2 - 1
  ⟨velocityXJitter, 0.3 + velocityYJitter⟩

/-- Initial velocity of a submersion-splash particle, lines 372-375. -/
def submersionVelocity (rand01 : Nat → ℚ) (r : Nat) : Vec2 :=
  let velocityXJitter := rand01 r * 2 - 1
  let velocityYJitter := rand01 (r + 1) * 2
  ⟨velocityXJitter, velocityYJitter⟩

/-- The spawn loop `for (i = 0; i < MAX_PARTICLES && particlesToSpawn > 0; ++i)` shared
(up to the velocity formula and the request count) by lines 339-351 and 367-379, entered
at loop variable `i`.  Returns the pool and the number of `rand()` calls made so far. -/
def spawnLoop (cursorPos : Vec2) (velocityOf : Nat → Vec2)
    (i particlesToSpawn randCalls : Nat) (pool : Pool) : Pool × Nat :=
  if i < MAX_PARTICLES ∧ particlesToSpawn > 0 then
    if (pool i).active = false then
      spawnLoop cursorPos velocityOf (i + 1) (particlesToSpawn - 1) (randCalls + 2)
        (setSlot pool i ⟨cursorPos, velocityOf randCalls, true⟩)
    else
      spawnLoop cursorPos velocityOf (i + 1) particlesToSpawn randCalls pool
  else (pool, randCalls)
termination_by MAX_PARTICLES - i
decreasing_by all_goals omega

/-- The click-splash burst, lines 337-351. -/
def clickSplash (inp : Input) (randCalls : Nat) (pool : Pool) : Pool × Nat :=
  spawnLoop (cursor inp) (clickVelocity inp.rand01) 0 100 randCalls pool

/-- The submersion-splash burst, lines 365-379. -/
def submersionSplash (inp : Input) (randCalls : Nat) (pool : Pool) : Pool × Nat :=
  spawnLoop (cursor inp) (submersionVelocity inp.rand01) 0 20 randCalls pool

/-- State after the click handling of lines 331-358, with the number of `rand()` calls
made and whether the click burst was issued. -/
structure ClickResult where
  pool : Pool
  randCalls : Nat
  isWet : Bool
  wasClicking : Bool
  burst : Bool

/-- The click handling of lines 331-358. -/
def clickBlock (inp : Input) (s : State) : ClickResult :=
  if mouseCondition inp then
    if !s.wasClicking && s.isWet then
      let r := clickSplash inp 0 s.ParticlePool
      ⟨r.1, r.2, false, true, true⟩
    else
      ⟨s.ParticlePool, 0, false, true, false⟩
  else
    ⟨s.ParticlePool, 0, s.isWet, false, false⟩

/-- The test of line 361 against the water level of this frame. -/
def underWater (inp : Input) (waterLevel : ℚ) : Bool :=
  decide ((cursor inp).y < waterLevel * 2 - 1)

/-- State after the submersion check of lines 361-386. -/
structure SubmersionResult where
  pool : Pool
  isWet : Bool
  cursorWasUnderWater : Bool
  burst : Bool

/-- The submersion check of lines 361-386, run on the result of the click handling. -/
def submersionBlock (inp : Input) (waterLevel : ℚ) (cursorWasUnderWater : Bool)
    (c : ClickResult) : SubmersionResult :=
  if underWater inp waterLevel then
    if !cursorWasUnderWater then
      let r := submersionSplash inp c.randCalls c.pool
      ⟨r.1, true, true, true⟩
    else
      ⟨c.pool, true, true, false⟩
  else
    ⟨c.pool, c.isWet, false, false⟩

/-! ## Integrator (lines 417-438) -/

/-- The body of the branch `if (ParticlePool[i].active)`, lines 421-432, on one slot. -/
def integrateParticle (deltaTime : ℚ) (p : Particle) : Particle :=
  let velocity1 : Vec2 := ⟨p.velocity.x, p.velocity.y - 0.01⟩
  let position1 : Vec2 :=
    ⟨p.position.x + velocity1.x * deltaTime, p.position.y + velocity1.y * deltaTime⟩
  let velocity2 : Vec2 :=
    if |position1.x| ≥ 0.99 then ⟨-velocity1.x, velocity1.y⟩ else velocity1
  let active2 : Bool := if position1.y < -1.0 then false else p.active
  ⟨position1, velocity2, active2⟩

/-- The integration pass `for (i = 0; i < MAX_PARTICLES; ++i)` of lines 417-438, entered
at loop variable `i`, on the pool and the mapped buffer. -/
def integrateLoop (deltaTime : ℚ) (i : Nat) (pool : Pool) (mapped : FloatBuffer) :
    Pool × FloatBuffer :=
  if i < MAX_PARTICLES then
    if (pool i).active then
      let p := integrateParticle deltaTime (pool i)
      integrateLoop deltaTime (i + 1) (setSlot pool i p)
        (setFloat (setFloat mapped (i * 2 + 0) p.position.x) (i * 2 + 1) p.position.y)
    else
      integrateLoop deltaTime (i + 1) pool mapped
  else (pool, mapped)
termination_by MAX_PARTICLES - i
decreasing_by all_goals omega

/-- The integration pass of one frame, lines 416-439. -/
def integrate (deltaTime : ℚ) (pool : Pool) (mapped : FloatBuffer) : Pool × FloatBuffer :=
  integrateLoop deltaTime 0 pool mapped

/-! ## Render bridge (lines 444-448) -/

/-- The draw loop `for (i = 0; i < MAX_PARTICLES; ++i)` of lines 444-448, entered at
loop variable `i`: the draw submissions in the order they are issued. -/
def drawLoop (i : Nat) (pool : Pool) : List PointDraw :=
  if i < MAX_PARTICLES then
    if (pool i).active then
      ⟨i, 1⟩ :: drawLoop (i + 1) pool
    else
      drawLoop (i + 1) pool
  else []
termination_by MAX_PARTICLES - i
decreasing_by all_goals omega

/-! ## One frame (lines 288-465) -/

/-- What one iteration of the render loop leaves and emits. -/
structure FrameResult where
  /-- The loop variables handed to the next iteration. -/
  state : State
  /-- The value passed to `glUniform1i(isWetLoc, isWet)`, line 405. -/
  isWetUniform : Bool
  /-- The particle draw submissions of lines 444-448. -/
  particleDraws : List PointDraw
  /-- Whether the branch of line 336 was entered. -/
  clickBurst : Bool
  /-- Whether the branch of line 364 was entered. -/
  submersionBurst : Bool

/-- One iteration of the render loop, lines 288-465.  The range mapped by `glMapBuffer`
at line 416 is the store of the particle positions buffer, the buffer bound to
`GL_ARRAY_BUFFER` since line 210; entries the pass does not write keep their value. -/
def frame (inp : Input) (s : State) : FrameResult :=
  let waterLevel := updateWaterLevel inp s.waterLevel
  let c := clickBlock inp s
  let u := submersionBlock inp waterLevel s.cursorWasUnderWater c
  let r := integrate inp.deltaTime u.pool s.particleVBO
  { state :=
      { ParticlePool := r.1
        particleVBO := r.2
        isWet := u.isWet
        wasClicking := c.wasClicking
        waterLevel := waterLevel
        cursorWasUnderWater := u.cursorWasUnderWater }
    isWetUniform := u.isWet
    particleDraws := drawLoop 0 r.1
    clickBurst := c.burst
    submersionBurst := u.burst }

/-- The results of consecutive frames, first frame first. -/
def frames : State → List Input → List FrameResult
  | _, [] => []
  | s, inp :: rest => frame inp s :: frames (frame inp s).state rest

/-- The state after consecutive frames. -/
def run : State → List Input → State
  | s, [] => s
  | s, inp :: rest => run (frame inp s).state rest

/-! ## Start-up (lines 199-211 and 280-285) -/

/-- The loop of lines 203-206 filling the array `particlePos`, entered at `i`. -/
def particlePosLoop (pool : Pool) (i : Nat) (particlePos : Nat → Nat → ℚ) :
    Nat → Nat → ℚ :=
  if i < MAX_PARTICLES then
    let a1 : Nat → Nat → ℚ :=
      fun r c => if r = i ∧ c = 0 then (pool i).position.x else particlePos r c
    let a2 : Nat → Nat → ℚ :=
      fun r c => if r = i ∧ c = 1 then (pool i).position.y else a1 r c
    particlePosLoop pool (i + 1) a2
  else particlePos
termination_by MAX_PARTICLES - i
decreasing_by all_goals omega

/-- The upload `glBufferData(..., sizeof(particlePos), particlePos, ...)` of line 211:
the rows of the array, one after the other. -/
def glBufferData (particlePos : Nat → Nat → ℚ) : FloatBuffer :=
  fun k => particlePos (k / 2) (k % 2)

/-- The state on entry to the render loop.  The position and velocity of a
default-constructed `Particle` and the array `particlePos` before its loop are
whatever the memory holds: they are parameters. -/
def initState (position0 velocity0 : Nat → Vec2) (particlePos0 : Nat → Nat → ℚ) : State :=
  let pool : Pool := fun i => ⟨position0 i, velocity0 i, false⟩
  { ParticlePool := pool
    particleVBO := glBufferData (particlePosLoop pool 0 particlePos0)
    isWet := false
    wasClicking := false
    waterLevel := 0.5
    cursorWasUnderWater := false }

/-- The states on entry to some iteration of the render loop. -/
inductive Reachable : State → Prop
  | init (position0 velocity0 : Nat → Vec2) (particlePos0 : Nat → Nat → ℚ) :
      Reachable (initState position0 velocity0 particlePos0)
  | frame (inp : Input) (s : State) : Reachable s → Reachable (frame inp s).state

/-- The pool on entry to the integration pass of a frame: after the click handling and
the submersion check, line 386. -/
def afterEmission (inp : Input) (s : State) : Pool :=
  (submersionBlock inp (updateWaterLevel inp s.waterLevel) s.cursorWasUnderWater
    (clickBlock inp s)).pool

/-- An input with no key and no button pressed, the cursor at the centre of an
800 x 600 window and a frame time of 1/60 s. -/
def idleInput : Input :=
  { deltaTime := 1 / 60
    getKey := fun _ => 0
    getMouseButton := fun _ => 0
    cursorXPos := 400
    cursorYPos := 300
    width := 800
    height := 600
    rand01 := fun _ => 1 / 2 }

/-- The input `idleInput` with the left mouse button down. -/
def clickInput : Input :=
  { idleInput with getMouseButton := fun b => if b = GLFW_MOUSE_BUTTON_LEFT then GLFW_PRESS else 0 }

/-- The input `clickInput` with the cursor three quarters down the window. -/
def submergedClickInput : Input :=
  { clickInput with cursorYPos := 450 }

/-- A state whose slots all hold the particle `p`, with an all-zero buffer, water level
0.5 and the given flags. -/
def uniformState (p : Particle) (isWet wasClicking cursorWasUnderWater : Bool) : State :=
  { ParticlePool := fun _ => p
    particleVBO := fun _ => 0
    isWet := isWet
    wasClicking := wasClicking
    waterLevel := 0.5
    cursorWasUnderWater := cursorWasUnderWater }

/-! ## Counting free slots -/

/-- The number of inactive slots with index in `[i, j)`. -/
def freeBetween (pool : Pool) (i j : Nat) : Nat :=
  (List.range' i (j - i)).countP (fun k => !(pool k).active)

/-- The number of inactive slots with index below `j`. -/
def freeBefore (pool : Pool) (j : Nat) : Nat :=
  (List.range j).countP (fun k => !(pool k).active)

/-- The number of inactive slots of the pool. -/
def freeSlots (pool : Pool) : Nat := freeBefore pool MAX_PARTICLES

/-- The number of slots that are inactive in `before` and active in `after`. -/
def activatedCount (before after : Pool) : Nat :=
  (List.range MAX_PARTICLES).countP (fun k => !(before k).active && (after k).active)

/-! ## Loop lemmas -/

theorem integrateLoop_pool (deltaTime : ℚ) (i : Nat) (pool : Pool) (mapped : FloatBuffer)
    (j : Nat) :
    (integrateLoop deltaTime i pool mapped).1 j =
      if i ≤ j ∧ j < MAX_PARTICLES ∧ (pool j).active = true then
        integrateParticle deltaTime (pool j) else pool j := by
  induction i, pool, mapped using integrateLoop.induct deltaTime with
  | case1 i pool mapped hi ha p ih =>
    rw [integrateLoop, if_pos hi, if_pos ha]
    simp only [] at ih ⊢
    rw [ih]
    by_cases hj : j = i
    · subst hj
      simp [setSlot, hi, ha]
    · have h1 : (i + 1 ≤ j) = (i ≤ j) := by
        apply propext; constructor <;> intro h <;> omega
      simp [setSlot, hj, h1]
  | case2 i pool mapped hi ha ih =>
    rw [integrateLoop, if_pos hi, if_neg ha, ih]
    by_cases hj : j = i
    · subst hj
      simp [ha]
    · have h1 : (i + 1 ≤ j) = (i ≤ j) := by
        apply propext; constructor <;> intro h <;> omega
      simp [h1]
  | case3 i pool mapped hi =>
    rw [integrateLoop, if_neg hi]
    have : ¬ (i ≤ j ∧ j < MAX_PARTICLES ∧ (pool j).active = true) := by
      intro h; omega
    simp [this]

theorem integrateLoop_buffer (deltaTime : ℚ) (i : Nat) (pool : Pool) (mapped : FloatBuffer)
    (k : Nat) :
    (integrateLoop deltaTime i pool mapped).2 k =
      if i ≤ k / 2 ∧ k / 2 < MAX_PARTICLES ∧ (pool (k / 2)).active = true then
        if k % 2 = 0 then (integrateParticle deltaTime (pool (k / 2))).position.x
        else (integrateParticle deltaTime (pool (k / 2))).position.y
      else mapped k := by
  induction i, pool, mapped using integrateLoop.induct deltaTime with
  | case1 i pool mapped hi ha p ih =>
    rw [integrateLoop, if_pos hi, if_pos ha]
    simp only [] at ih ⊢
    rw [ih]
    by_cases hj : k / 2 = i
    · subst hj
      have h0 : ¬ (k / 2 + 1 ≤ k / 2) := by omega
      by_cases hk : k % 2 = 0
      · have e1 : k = k / 2 * 2 + 0 := by omega
        have e2 : ¬ (k = k / 2 * 2 + 1) := by omega
        simp only [h0, false_and, if_false, hi, ha, le_refl, true_and, and_self, if_true, hk]
        simp only [setFloat, if_neg e2]
        rw [if_pos e1]
      · have e2 : k = k / 2 * 2 + 1 := by omega
        simp only [h0, false_and, if_false, hi, ha, le_refl, true_and, and_self, if_true, hk]
        simp only [setFloat]
        rw [if_pos e2]
    · have h1 : (i + 1 ≤ k / 2) = (i ≤ k / 2) := by
        apply propext; constructor <;> intro h <;> omega
      have e1 : ¬ (k = i * 2 + 0) := by omega
      have e2 : ¬ (k = i * 2 + 1) := by omega
      simp only [setSlot, if_neg hj, h1, setFloat, if_neg e1, if_neg e2]
  | case2 i pool mapped hi ha ih =>
    rw [integrateLoop, if_pos hi, if_neg ha, ih]
    by_cases hj : k / 2 = i
    · have h0 : ¬ (i + 1 ≤ k / 2) := by omega
      have h2 : ¬ ((pool (k / 2)).active = true) := by rw [hj]; exact ha
      simp [h0, h2]
    · have h1 : (i + 1 ≤ k / 2) = (i ≤ k / 2) := by
        apply propext; constructor <;> intro h <;> omega
      simp [h1]
  | case3 i pool mapped hi =>
    rw [integrateLoop, if_neg hi]
    have : ¬ (i ≤ k / 2 ∧ k / 2 < MAX_PARTICLES ∧ (pool (k / 2)).active = true) := by
      intro h; omega
    simp [this]

theorem drawLoop_eq (i : Nat) (pool : Pool) :
    drawLoop i pool =
      ((List.range' i (MAX_PARTICLES - i)).filter (fun j => (pool j).active)).map
        (fun j => (⟨j, 1⟩ : PointDraw)) := by
  induction i, pool using drawLoop.induct with
  | case1 i pool hi ha ih =>
    rw [drawLoop, if_pos hi, if_pos ha, ih]
    have e : MAX_PARTICLES - i = (MAX_PARTICLES - (i + 1)) + 1 := by omega
    rw [e, List.range'_succ, List.filter_cons_of_pos (by simpa using ha), List.map_cons]
  | case2 i pool hi ha ih =>
    rw [drawLoop, if_pos hi, if_neg ha, ih]
    have e : MAX_PARTICLES - i = (MAX_PARTICLES - (i + 1)) + 1 := by omega
    rw [e, List.range'_succ, List.filter_cons_of_neg (by simpa using ha)]
  | case3 i pool hi =>
    rw [drawLoop, if_neg hi]
    have e : MAX_PARTICLES - i = 0 := by omega
    simp [e]

theorem particlePosLoop_eq (pool : Pool) (i : Nat) (particlePos : Nat → Nat → ℚ)
    (r c : Nat) :
    particlePosLoop pool i particlePos r c =
      if i ≤ r ∧ r < MAX_PARTICLES ∧ c < 2 then
        if c = 0 then (pool r).position.x else (pool r).position.y
      else particlePos r c := by
  induction i, particlePos using particlePosLoop.induct pool with
  | case1 i particlePos hi a1 a2 ih =>
    rw [particlePosLoop, if_pos hi]
    simp only [a2, a1, dite_eq_ite] at ih ⊢
    rw [ih]
    by_cases hr : r = i
    · subst hr
      have h0 : ¬ (r + 1 ≤ r) := by omega
      by_cases hc : c = 0
      · subst hc
        simp [h0, hi, a2, a1]
      · by_cases hc1 : c = 1
        · subst hc1
          simp [h0, hi, a2]
        · have hc2 : ¬ (c < 2) := by omega
          simp [h0, hc, hc1, hc2, a2, a1]
    · have h1 : (i + 1 ≤ r) = (i ≤ r) := by
        apply propext; constructor <;> intro h <;> omega
      simp [h1, hr, a2, a1]
  | case2 i particlePos hi =>
    rw [particlePosLoop, if_neg hi]
    have : ¬ (i ≤ r ∧ r < MAX_PARTICLES ∧ c < 2) := by
      intro h; omega
    simp [this]

theorem freeBetween_self (pool : Pool) (i : Nat) : freeBetween pool i i = 0 := by
  simp [freeBetween]

theorem freeBetween_succ_left (pool : Pool) (i j : Nat) (h : i < j) :
    freeBetween pool i j = (if (pool i).active = true then 0 else 1) + freeBetween pool (i + 1) j := by
  unfold freeBetween
  have e : j - i = (j - (i + 1)) + 1 := by omega
  rw [e, List.range'_succ, List.countP_cons]
  cases h : (pool i).active <;> simp [Nat.add_comm, h]

theorem freeBetween_congr (pool pool' : Pool) (i j : Nat)
    (h : ∀ k, i ≤ k → pool' k = pool k) : freeBetween pool' i j = freeBetween pool i j := by
  unfold freeBetween
  apply List.countP_congr
  intro k hk
  rw [List.mem_range'_1] at hk
  rw [h k hk.1]

theorem freeBefore_eq (pool : Pool) (j : Nat) : freeBefore pool j = freeBetween pool 0 j := by
  simp [freeBefore, freeBetween, List.range_eq_range']

theorem freeBefore_succ (pool : Pool) (j : Nat) :
    freeBefore pool (j + 1) = freeBefore pool j + (if (pool j).active = true then 0 else 1) := by
  unfold freeBefore
  rw [List.range_succ, List.countP_append]
  cases h : (pool j).active <;> simp [List.countP_cons, h]

theorem spawnLoop_pool (cursorPos : Vec2) (velocityOf : Nat → Vec2)
    (i particlesToSpawn randCalls : Nat) (pool : Pool) (j : Nat) :
    (spawnLoop cursorPos velocityOf i particlesToSpawn randCalls pool).1 j =
      if i ≤ j ∧ j < MAX_PARTICLES ∧ (pool j).active = false ∧
          freeBetween pool i j < particlesToSpawn then
        ⟨cursorPos, velocityOf (randCalls + 2 * freeBetween pool i j), true⟩
      else pool j := by
  induction i, particlesToSpawn, randCalls, pool using spawnLoop.induct cursorPos velocityOf with
  | case1 i n r pool hc ha ih =>
    rw [spawnLoop, if_pos hc, if_pos ha, ih]
    rcases Nat.lt_trichotomy j i with hj | hj | hj
    · have h0 : ¬ (i + 1 ≤ j) := by omega
      have h1 : ¬ (i ≤ j) := by omega
      have h2 : j ≠ i := by omega
      simp [h0, h1, h2, setSlot]
    · subst hj
      have h0 : ¬ (j + 1 ≤ j) := by omega
      simp [h0, setSlot, freeBetween_self, hc.1, hc.2, ha]
    · have h2 : j ≠ i := by omega
      have e1 : freeBetween (setSlot pool i ⟨cursorPos, velocityOf r, true⟩) (i + 1) j =
          freeBetween pool (i + 1) j := by
        apply freeBetween_congr
        intro k hk
        have : k ≠ i := by omega
        simp [setSlot, this]
      have e2 := freeBetween_succ_left pool i j hj
      rw [ha] at e2
      simp only [Bool.false_eq_true, if_false] at e2
      rw [e1, e2]
      have h3 : (i + 1 ≤ j) = True := by simp; omega
      have h4 : (i ≤ j) = True := by simp; omega
      have h5 : (freeBetween pool (i + 1) j < n - 1) = (1 + freeBetween pool (i + 1) j < n) := by
        apply propext; constructor <;> intro h <;> omega
      have h6 : r + 2 + 2 * freeBetween pool (i + 1) j = r + 2 * (1 + freeBetween pool (i + 1) j) := by
        omega
      simp only [setSlot, if_neg h2, h3, h4, h5, h6]
  | case2 i n r pool hc ha ih =>
    rw [spawnLoop, if_pos hc, if_neg ha, ih]
    rcases Nat.lt_trichotomy j i with hj | hj | hj
    · have h0 : ¬ (i + 1 ≤ j) := by omega
      have h1 : ¬ (i ≤ j) := by omega
      simp [h0, h1]
    · subst hj
      have h0 : ¬ (j + 1 ≤ j) := by omega
      simp [h0, ha]
    · have e2 := freeBetween_succ_left pool i j hj
      have ha' : (pool i).active = true := by simpa using ha
      rw [ha'] at e2
      simp only [if_true, Nat.zero_add] at e2
      rw [e2]
      have h3 : (i + 1 ≤ j) = True := by simp; omega
      have h4 : (i ≤ j) = True := by simp; omega
      simp only [h3, h4]
  | case3 i n r pool hc =>
    rw [spawnLoop, if_neg hc]
    have : ¬ (i ≤ j ∧ j < MAX_PARTICLES ∧ (pool j).active = false ∧ freeBetween pool i j < n) := by
      intro h
      apply hc
      omega
    simp only [if_neg this]

theorem spawnLoop_zero_pool (cursorPos : Vec2) (velocityOf : Nat → Vec2)
    (N randCalls : Nat) (pool : Pool) (j : Nat) :
    (spawnLoop cursorPos velocityOf 0 N randCalls pool).1 j =
      if j < MAX_PARTICLES ∧ (pool j).active = false ∧ freeBefore pool j < N then
        ⟨cursorPos, velocityOf (randCalls + 2 * freeBefore pool j), true⟩
      else pool j := by
  rw [spawnLoop_pool, freeBefore_eq]
  simp

theorem freeBefore_mono (pool : Pool) (a b : Nat) (h : a ≤ b) :
    freeBefore pool a ≤ freeBefore pool b := by
  induction b with
  | zero =>
    have : a = 0 := by omega
    subst this
    exact Nat.le_refl _
  | succ b ih =>
    rcases Nat.eq_or_lt_of_le h with h1 | h1
    · subst h1
      exact Nat.le_refl _
    · have := ih (by omega)
      rw [freeBefore_succ]
      omega

theorem spawnLoop_activated_upto (cursorPos : Vec2) (velocityOf : Nat → Vec2)
    (N randCalls : Nat) (pool : Pool) (M : Nat) (hM : M ≤ MAX_PARTICLES) :
    (List.range M).countP (fun k => !(pool k).active &&
        ((spawnLoop cursorPos velocityOf 0 N randCalls pool).1 k).active) =
      min N (freeBefore pool M) := by
  induction M with
  | zero => simp [freeBefore]
  | succ M ih =>
    have ih' := ih (by omega)
    rw [List.range_succ, List.countP_append, ih', freeBefore_succ, List.countP_cons,
      spawnLoop_zero_pool]
    have hlt : M < MAX_PARTICLES := by omega
    cases ha : (pool M).active
    · by_cases hf : freeBefore pool M < N
      · simp [hlt, hf]
        omega
      · simp [hlt, hf, ha]
        omega
    · simp [ha]

theorem integrate_pool (deltaTime : ℚ) (pool : Pool) (mapped : FloatBuffer) (j : Nat) :
    (integrate deltaTime pool mapped).1 j =
      if j < MAX_PARTICLES ∧ (pool j).active = true then
        integrateParticle deltaTime (pool j) else pool j := by
  unfold integrate
  rw [integrateLoop_pool]
  simp

theorem integrate_buffer_x (deltaTime : ℚ) (pool : Pool) (mapped : FloatBuffer) (j : Nat) :
    (integrate deltaTime pool mapped).2 (2 * j) =
      if j < MAX_PARTICLES ∧ (pool j).active = true then
        (integrateParticle deltaTime (pool j)).position.x else mapped (2 * j) := by
  unfold integrate
  rw [integrateLoop_buffer]
  have e1 : 2 * j / 2 = j := by omega
  have e2 : 2 * j % 2 = 0 := by omega
  simp [e1, e2]

theorem integrate_buffer_y (deltaTime : ℚ) (pool : Pool) (mapped : FloatBuffer) (j : Nat) :
    (integrate deltaTime pool mapped).2 (2 * j + 1) =
      if j < MAX_PARTICLES ∧ (pool j).active = true then
        (integrateParticle deltaTime (pool j)).position.y else mapped (2 * j + 1) := by
  unfold integrate
  rw [integrateLoop_buffer]
  have e1 : (2 * j + 1) / 2 = j := by omega
  have e2 : ¬ ((2 * j + 1) % 2 = 0) := by omega
  simp [e1, e2]

theorem drawLoop_zero (pool : Pool) :
    drawLoop 0 pool =
      ((List.range MAX_PARTICLES).filter (fun j => (pool j).active)).map
        (fun j => (⟨j, 1⟩ : PointDraw)) := by
  rw [drawLoop_eq, List.range_eq_range']
  rfl

theorem mem_drawLoop_zero (pool : Pool) (i : Nat) :
    (⟨i, 1⟩ : PointDraw) ∈ drawLoop 0 pool ↔ i < MAX_PARTICLES ∧ (pool i).active = true := by
  rw [drawLoop_zero, List.mem_map]
  constructor
  · rintro ⟨j, hj, e⟩
    have : j = i := by
      have := congrArg PointDraw.first e
      simpa using this
    subst this
    simpa [List.mem_filter] using hj
  · intro h
    exact ⟨i, by simpa [List.mem_filter] using h, rfl⟩

theorem integrateParticle_active (deltaTime : ℚ) (p : Particle) :
    (integrateParticle deltaTime p).active =
      if p.position.y + (p.velocity.y - 0.01) * deltaTime < -1 then false else p.active := by
  have e : (-1.0 : ℚ) = -1 := by norm_num
  simp only [integrateParticle, e]

theorem integrateParticle_position (deltaTime : ℚ) (p : Particle) :
    (integrateParticle deltaTime p).position =
      ⟨p.position.x + p.velocity.x * deltaTime,
        p.position.y + (p.velocity.y - 0.01) * deltaTime⟩ := by
  simp [integrateParticle]

theorem integrateParticle_velocity (deltaTime : ℚ) (p : Particle) :
    (integrateParticle deltaTime p).velocity =
      ⟨if |p.position.x + p.velocity.x * deltaTime| ≥ 0.99 then -p.velocity.x
        else p.velocity.x, p.velocity.y - 0.01⟩ := by
  unfold integrateParticle
  simp only []
  split <;> rfl

theorem clickBlock_pool_of_no_burst (inp : Input) (s : State)
    (h : (clickBlock inp s).burst = false) : (clickBlock inp s).pool = s.ParticlePool := by
  unfold clickBlock at h ⊢
  split
  · split
    · rename_i h1 h2
      simp [h1, h2] at h
    · rfl
  · rfl

theorem submersionBlock_pool_of_no_burst (inp : Input) (waterLevel : ℚ) (w : Bool)
    (c : ClickResult) (h : (submersionBlock inp waterLevel w c).burst = false) :
    (submersionBlock inp waterLevel w c).pool = c.pool := by
  unfold submersionBlock at h ⊢
  split
  · split
    · rename_i h1 h2
      simp [h1, h2] at h
    · rfl
  · rfl

theorem afterEmission_of_no_burst (inp : Input) (s : State)
    (h1 : (frame inp s).clickBurst = false) (h2 : (frame inp s).submersionBurst = false) :
    afterEmission inp s = s.ParticlePool := by
  unfold afterEmission
  rw [submersionBlock_pool_of_no_burst _ _ _ _ h2, clickBlock_pool_of_no_burst _ _ h1]

theorem frame_inactive_of_no_burst (inp : Input) (s : State) (i : Nat)
    (ha : (s.ParticlePool i).active = false)
    (h1 : (frame inp s).clickBurst = false) (h2 : (frame inp s).submersionBurst = false) :
    (frame inp s).state.ParticlePool i = s.ParticlePool i ∧
      (⟨i, 1⟩ : PointDraw) ∉ (frame inp s).particleDraws := by
  have e : (frame inp s).state.ParticlePool =
      (integrate inp.deltaTime (afterEmission inp s) s.particleVBO).1 := rfl
  have e2 : (frame inp s).particleDraws = drawLoop 0 (frame inp s).state.ParticlePool := rfl
  have hp : (frame inp s).state.ParticlePool i = s.ParticlePool i := by
    rw [e, integrate_pool, afterEmission_of_no_burst inp s h1 h2]
    simp [ha]
  refine ⟨hp, ?_⟩
  rw [e2, mem_drawLoop_zero, hp]
  simp [ha]

theorem mouseCondition_of_leftButtonDown (inp : Input) (h : leftButtonDown inp) :
    mouseCondition inp = true := by
  unfold leftButtonDown at h
  have e : (if GLFW_MOUSE_BUTTON_LEFT = GLFW_PRESS then (1 : Int) else 0) =
      GLFW_MOUSE_BUTTON_LEFT := by decide
  unfold mouseCondition
  rw [e, h]
  decide

theorem clickBlock_of_leftButtonDown (inp : Input) (s : State) (h : leftButtonDown inp) :
    (clickBlock inp s).wasClicking = true ∧ (clickBlock inp s).isWet = false ∧
      (clickBlock inp s).burst = (!s.wasClicking && s.isWet) := by
  unfold clickBlock
  rw [mouseCondition_of_leftButtonDown inp h]
  cases h1 : (!s.wasClicking && s.isWet) <;> simp

theorem clickBlock_pool_of_wasClicking (inp : Input) (s : State)
    (h : s.wasClicking = true) : (clickBlock inp s).pool = s.ParticlePool := by
  apply clickBlock_pool_of_no_burst
  unfold clickBlock
  split
  · simp [h]
  · rfl

theorem frames_clickBurst_of_wasClicking (s : State) (inputs : List Input)
    (hw : s.wasClicking = true) (hdown : ∀ x ∈ inputs, leftButtonDown x) :
    (frames s inputs).map (fun r => r.clickBurst) = List.replicate inputs.length false := by
  induction inputs generalizing s with
  | nil => rfl
  | cons inp rest ih =>
    have hd := hdown inp (by simp)
    have hc := clickBlock_of_leftButtonDown inp s hd
    have hb : (frame inp s).clickBurst = false := by
      show (clickBlock inp s).burst = false
      rw [hc.2.2, hw]
      rfl
    have hw' : (frame inp s).state.wasClicking = true := hc.1
    simp only [frames, List.map_cons, List.length_cons, List.replicate_succ, hb]
    rw [ih (frame inp s).state hw' (fun x hx => hdown x (by simp [hx]))]

theorem run_wasClicking (s : State) (inputs : List Input)
    (hw : s.wasClicking = true) (hdown : ∀ x ∈ inputs, leftButtonDown x) :
    (run s inputs).wasClicking = true := by
  induction inputs generalizing s with
  | nil => exact hw
  | cons inp rest ih =>
    have hd := hdown inp (by simp)
    have hw' : (frame inp s).state.wasClicking = true :=
      (clickBlock_of_leftButtonDown inp s hd).1
    exact ih (frame inp s).state hw' (fun x hx => hdown x (by simp [hx]))

theorem frame_isWet (inp : Input) (s : State) :
    (frame inp s).state.isWet =
      (if (cursor inp).y < updateWaterLevel inp s.waterLevel * 2 - 1 then true
        else (clickBlock inp s).isWet) ∧
    (frame inp s).isWetUniform = (frame inp s).state.isWet := by
  refine ⟨?_, rfl⟩
  show (submersionBlock inp (updateWaterLevel inp s.waterLevel) s.cursorWasUnderWater
    (clickBlock inp s)).isWet = _
  unfold submersionBlock underWater
  by_cases h : (cursor inp).y < updateWaterLevel inp s.waterLevel * 2 - 1
  · simp only [h, decide_True, if_true]
    split <;> rfl
  · simp [h]

theorem spawnLoop_same_or_active (cursorPos : Vec2) (velocityOf : Nat → Vec2)
    (N randCalls : Nat) (pool : Pool) (j : Nat) :
    (spawnLoop cursorPos velocityOf 0 N randCalls pool).1 j = pool j ∨
      ((spawnLoop cursorPos velocityOf 0 N randCalls pool).1 j).active = true := by
  rw [spawnLoop_zero_pool]
  split
  · exact Or.inr rfl
  · exact Or.inl rfl

theorem clickBlock_same_or_active (inp : Input) (s : State) (j : Nat) :
    (clickBlock inp s).pool j = s.ParticlePool j ∨
      ((clickBlock inp s).pool j).active = true := by
  unfold clickBlock
  split
  · split
    · exact spawnLoop_same_or_active _ _ _ _ _ j
    · exact Or.inl rfl
  · exact Or.inl rfl

theorem submersionBlock_same_or_active (inp : Input) (waterLevel : ℚ) (w : Bool)
    (c : ClickResult) (j : Nat) :
    (submersionBlock inp waterLevel w c).pool j = c.pool j ∨
      ((submersionBlock inp waterLevel w c).pool j).active = true := by
  unfold submersionBlock
  split
  · split
    · exact spawnLoop_same_or_active _ _ _ _ _ j
    · exact Or.inl rfl
  · exact Or.inl rfl

theorem afterEmission_same_or_active (inp : Input) (s : State) (j : Nat) :
    afterEmission inp s j = s.ParticlePool j ∨ (afterEmission inp s j).active = true := by
  unfold afterEmission
  rcases submersionBlock_same_or_active inp (updateWaterLevel inp s.waterLevel)
    s.cursorWasUnderWater (clickBlock inp s) j with h | h
  · rcases clickBlock_same_or_active inp s j with h' | h'
    · exact Or.inl (h.trans h')
    · exact Or.inr (by rw [h]; exact h')
  · exact Or.inr h

theorem initState_buffer (position0 velocity0 : Nat → Vec2) (particlePos0 : Nat → Nat → ℚ)
    (i : Nat) (hi : i < MAX_PARTICLES) :
    (initState position0 velocity0 particlePos0).particleVBO (2 * i) =
        ((initState position0 velocity0 particlePos0).ParticlePool i).position.x ∧
    (initState position0 velocity0 particlePos0).particleVBO (2 * i + 1) =
        ((initState position0 velocity0 particlePos0).ParticlePool i).position.y := by
  have e1 : 2 * i / 2 = i := by omega
  have e2 : 2 * i % 2 = 0 := by omega
  have e3 : (2 * i + 1) / 2 = i := by omega
  have e4 : (2 * i + 1) % 2 = 1 := by omega
  constructor
  · show glBufferData _ (2 * i) = _
    unfold glBufferData
    rw [particlePosLoop_eq, e1, e2]
    simp [hi]
    rfl
  · show glBufferData _ (2 * i + 1) = _
    unfold glBufferData
    rw [particlePosLoop_eq, e3, e4]
    simp [hi]
    rfl

theorem frame_buffer (inp : Input) (s : State) (i : Nat) (hi : i < MAX_PARTICLES)
    (hx : s.particleVBO (2 * i) = (s.ParticlePool i).position.x)
    (hy : s.particleVBO (2 * i + 1) = (s.ParticlePool i).position.y) :
    (frame inp s).state.particleVBO (2 * i) =
        ((frame inp s).state.ParticlePool i).position.x ∧
    (frame inp s).state.particleVBO (2 * i + 1) =
        ((frame inp s).state.ParticlePool i).position.y := by
  have e1 : (frame inp s).state.ParticlePool =
      (integrate inp.deltaTime (afterEmission inp s) s.particleVBO).1 := rfl
  have e2 : (frame inp s).state.particleVBO =
      (integrate inp.deltaTime (afterEmission inp s) s.particleVBO).2 := rfl
  rw [e1, e2, integrate_pool, integrate_buffer_x, integrate_buffer_y]
  cases ha : (afterEmission inp s i).active
  · have hsame : afterEmission inp s i = s.ParticlePool i := by
      rcases afterEmission_same_or_active inp s i with h | h
      · exact h
      · rw [ha] at h; cases h
    simp only [Bool.false_eq_true, and_false, if_false]
    rw [hsame]
    exact ⟨hx, hy⟩
  · simp [hi]

theorem reachable_buffer (s : State) (h : Reachable s) (i : Nat) (hi : i < MAX_PARTICLES) :
    s.particleVBO (2 * i) = (s.ParticlePool i).position.x ∧
    s.particleVBO (2 * i + 1) = (s.ParticlePool i).position.y := by
  induction h with
  | init position0 velocity0 particlePos0 =>
    exact initState_buffer position0 velocity0 particlePos0 i hi
  | frame inp s _ ih => exact frame_buffer inp s i hi ih.1 ih.2

/-! ## The claims -/

/-- C1. A burst of `N` requests (the shared spawn loop for any `N`, the click splash with
`N = 100`, the submersion splash with `N = 20`) run on a pool with `f` free slots:
every slot that was inactive and has fewer than `N` inactive slots below it ends active
at the cursor position; every other slot is unchanged in all three fields; the number
of slots activated is `min N f`; and when `f ≤ N` the pool ends fully active. -/
theorem burst_activates_lowest_free_slots :
    let Outcome : Nat → Vec2 → Pool → Pool → Prop := fun N cursorPos pool after =>
      (∀ i, i < MAX_PARTICLES → (pool i).active = false → freeBefore pool i < N →
        (after i).active = true ∧ (after i).position = cursorPos) ∧
      (∀ i, ¬ (i < MAX_PARTICLES ∧ (pool i).active = false ∧ freeBefore pool i < N) →
        after i = pool i) ∧
      activatedCount pool after = min N (freeSlots pool) ∧
      (freeSlots pool ≤ N → ∀ i, i < MAX_PARTICLES → (after i).active = true)
    (∀ (cursorPos : Vec2) (velocityOf : Nat → Vec2) (N randCalls : Nat) (pool : Pool),
      Outcome N cursorPos pool (spawnLoop cursorPos velocityOf 0 N randCalls pool).1) ∧
    (∀ (inp : Input) (randCalls : Nat) (pool : Pool),
      Outcome 100 (cursor inp) pool (clickSplash inp randCalls pool).1) ∧
    (∀ (inp : Input) (randCalls : Nat) (pool : Pool),
      Outcome 20 (cursor inp) pool (submersionSplash inp randCalls pool).1) := by
  intro Outcome
  have key : ∀ (cursorPos : Vec2) (velocityOf : Nat → Vec2) (N randCalls : Nat) (pool : Pool),
      Outcome N cursorPos pool (spawnLoop cursorPos velocityOf 0 N randCalls pool).1 := by
    intro cursorPos velocityOf N randCalls pool
    refine ⟨?_, ?_, ?_, ?_⟩
    · intro i hi ha hf
      rw [spawnLoop_zero_pool, if_pos ⟨hi, ha, hf⟩]
      exact ⟨rfl, rfl⟩
    · intro i hn
      rw [spawnLoop_zero_pool, if_neg hn]
    · exact spawnLoop_activated_upto cursorPos velocityOf N randCalls pool MAX_PARTICLES
        (Nat.le_refl _)
    · intro hf i hi
      rw [spawnLoop_zero_pool]
      cases ha : (pool i).active
      · have h1 := freeBefore_succ pool i
        rw [ha] at h1
        simp only [Bool.false_eq_true, if_false] at h1
        have h2 := freeBefore_mono pool (i + 1) MAX_PARTICLES (by omega)
        have h3 : freeBefore pool i < N := by
          unfold freeSlots at hf
          omega
        rw [if_pos ⟨hi, rfl, h3⟩]
      · simp [ha]
  exact ⟨key, fun inp r pool => key _ _ 100 r pool, fun inp r pool => key _ _ 20 r pool⟩

/-- C3. In every frame the particle draw submissions are, in slot order and once each,
`glDrawArrays(GL_POINTS, i, 1)` for exactly the indices `i` below `MAX_PARTICLES` whose
slot is active in the pool left by that frame's integration pass; the same holds for
the draw loop run after an integration pass on any pool and any `deltaTime`. -/
theorem draws_are_exactly_active_slots :
    (∀ (inp : Input) (s : State),
      (frame inp s).state.ParticlePool =
          (integrate inp.deltaTime (afterEmission inp s) s.particleVBO).1 ∧
      (frame inp s).particleDraws =
          ((List.range MAX_PARTICLES).filter
            (fun i => ((frame inp s).state.ParticlePool i).active)).map
            (fun i => (⟨i, 1⟩ : PointDraw)) ∧
      (∀ d : PointDraw, d ∈ (frame inp s).particleDraws ↔
          d.count = 1 ∧ d.first < MAX_PARTICLES ∧
            ((frame inp s).state.ParticlePool d.first).active = true)) ∧
    (∀ (deltaTime : ℚ) (pool : Pool) (mapped : FloatBuffer) (i : Nat),
      (⟨i, 1⟩ : PointDraw) ∈ drawLoop 0 (integrate deltaTime pool mapped).1 ↔
        i < MAX_PARTICLES ∧ ((integrate deltaTime pool mapped).1 i).active = true) := by
  refine ⟨fun inp s => ⟨rfl, ?_, ?_⟩, fun deltaTime pool mapped i => mem_drawLoop_zero _ i⟩
  · exact drawLoop_zero _
  · intro d
    have h : (frame inp s).particleDraws = drawLoop 0 (frame inp s).state.ParticlePool := rfl
    rw [h]
    constructor
    · intro hd
      have hd' := hd
      rw [drawLoop_zero, List.mem_map] at hd'
      obtain ⟨j, _, e⟩ := hd'
      subst e
      exact ⟨rfl, (mem_drawLoop_zero _ j).1 hd⟩
    · rintro ⟨h1, h2⟩
      have e : d = ⟨d.first, 1⟩ := by
        cases d
        simp only [] at h1
        subst h1
        rfl
      rw [e]
      exact (mem_drawLoop_zero _ d.first).2 h2

/-- C5. One integration step on an active slot with position `p` and velocity `v` leaves
velocity.y equal to `v.y - 0.01`, whatever `deltaTime` is, and position equal to
`p + (v.x, v.y - 0.01) * deltaTime`; the slot stays active exactly when the new
position.y is not below `-1`. -/
theorem integration_step_gravity_then_move (deltaTime : ℚ) (pool : Pool)
    (mapped : FloatBuffer) (i : Nat) (hi : i < MAX_PARTICLES)
    (ha : (pool i).active = true) :
    ((integrate deltaTime pool mapped).1 i).velocity.y = (pool i).velocity.y - 0.01 ∧
    ((integrate deltaTime pool mapped).1 i).position =
      ⟨(pool i).position.x + (pool i).velocity.x * deltaTime,
        (pool i).position.y + ((pool i).velocity.y - 0.01) * deltaTime⟩ ∧
    (((integrate deltaTime pool mapped).1 i).active = true ↔
      ¬ ((pool i).position.y + ((pool i).velocity.y - 0.01) * deltaTime < -1)) := by
  rw [integrate_pool, if_pos ⟨hi, ha⟩]
  refine ⟨?_, integrateParticle_position _ _, ?_⟩
  · rw [integrateParticle_velocity]
  · rw [integrateParticle_active, ha]
    by_cases h : (pool i).position.y + ((pool i).velocity.y - 0.01) * deltaTime < -1 <;>
      simp [h]

/-- C5, at the input of the specification: position (0.5, 0), velocity (0, 0) and
`deltaTime = 1` give velocity.y = -0.01 and position (0.5, -0.01), still active. -/
theorem integration_step_gravity_then_move_witness :
    ((integrate 1 (fun _ => ⟨⟨0.5, 0⟩, ⟨0, 0⟩, true⟩) (fun _ => 0)).1 0).velocity.y = -0.01 ∧
    ((integrate 1 (fun _ => ⟨⟨0.5, 0⟩, ⟨0, 0⟩, true⟩) (fun _ => 0)).1 0).position =
      ⟨0.5, -0.01⟩ ∧
    ((integrate 1 (fun _ => ⟨⟨0.5, 0⟩, ⟨0, 0⟩, true⟩) (fun _ => 0)).1 0).active = true := by
  have h := integration_step_gravity_then_move 1 (fun _ => ⟨⟨0.5, 0⟩, ⟨0, 0⟩, true⟩)
    (fun _ => 0) 0 (by decide) rfl
  obtain ⟨h1, h2, h3⟩ := h
  refine ⟨?_, ?_, ?_⟩
  · rw [h1]; norm_num
  · rw [h2]; norm_num
  · rw [h3]; norm_num

/-- C6. One integration step on an active slot with position `p` and velocity `v` leaves
velocity.x equal to `-v.x` when `|p.x + v.x * deltaTime| ≥ 0.99` and to `v.x` otherwise,
and position.x equal to `p.x + v.x * deltaTime` (no clamping).  In particular a slot at
position.x = 0.995 with velocity.x = 2 ends with velocity.x = -2 for every
`deltaTime ≥ 0`. -/
theorem integration_step_wall_bounce (deltaTime : ℚ) (pool : Pool)
    (mapped : FloatBuffer) (i : Nat) (hi : i < MAX_PARTICLES)
    (ha : (pool i).active = true) :
    ((integrate deltaTime pool mapped).1 i).velocity.x =
      (if |(pool i).position.x + (pool i).velocity.x * deltaTime| ≥ 0.99
        then -(pool i).velocity.x else (pool i).velocity.x) ∧
    ((integrate deltaTime pool mapped).1 i).position.x =
      (pool i).position.x + (pool i).velocity.x * deltaTime ∧
    ((pool i).position.x = 0.995 → (pool i).velocity.x = 2 → 0 ≤ deltaTime →
      ((integrate deltaTime pool mapped).1 i).velocity.x = -2) := by
  rw [integrate_pool, if_pos ⟨hi, ha⟩, integrateParticle_velocity,
    integrateParticle_position]
  refine ⟨rfl, rfl, ?_⟩
  intro hx hv hdt
  simp only [hx, hv]
  have h : |(0.995 : ℚ) + 2 * deltaTime| ≥ 0.99 := by
    rw [abs_of_nonneg (by linarith)]
    have : (0.99 : ℚ) ≤ 0.995 := by norm_num
    linarith
  rw [if_pos h]

/-- C6, at the input of the specification with `deltaTime = 1/60`. -/
theorem integration_step_wall_bounce_witness :
    ((integrate (1 / 60) (fun _ => ⟨⟨0.995, 0⟩, ⟨2, 0⟩, true⟩) (fun _ => 0)).1 0).velocity.x
      = -2 :=
  (integration_step_wall_bounce (1 / 60) (fun _ => ⟨⟨0.995, 0⟩, ⟨2, 0⟩, true⟩)
    (fun _ => 0) 0 (by decide) rfl).2.2 rfl rfl (by norm_num)

/-- C4. A slot that is active on entry to a frame's integration pass and whose position.y
after the position update is below `-1` is inactive after the pass and is not drawn in
that frame; if its position.y after the update is at least `-1` it stays active (and is
drawn).  The integration pass leaves an inactive slot exactly as it was; a slot that the
emission phase of a frame leaves inactive ends the frame as it entered it, inactive and
not drawn; and through any run of frames in which no burst is issued a slot that was
inactive stays as it was and is never drawn. -/
theorem expired_particle_is_inactive_until_burst :
    (∀ (inp : Input) (s : State) (i : Nat), i < MAX_PARTICLES →
      (afterEmission inp s i).active = true →
      (afterEmission inp s i).position.y +
          ((afterEmission inp s i).velocity.y - 0.01) * inp.deltaTime < -1 →
      ((frame inp s).state.ParticlePool i).active = false ∧
        (⟨i, 1⟩ : PointDraw) ∉ (frame inp s).particleDraws) ∧
    (∀ (inp : Input) (s : State) (i : Nat), i < MAX_PARTICLES →
      (afterEmission inp s i).active = true →
      ¬ ((afterEmission inp s i).position.y +
          ((afterEmission inp s i).velocity.y - 0.01) * inp.deltaTime < -1) →
      ((frame inp s).state.ParticlePool i).active = true ∧
        (⟨i, 1⟩ : PointDraw) ∈ (frame inp s).particleDraws) ∧
    (∀ (deltaTime : ℚ) (pool : Pool) (mapped : FloatBuffer) (i : Nat),
      (pool i).active = false →
      (integrate deltaTime pool mapped).1 i = pool i ∧
        (⟨i, 1⟩ : PointDraw) ∉ drawLoop 0 (integrate deltaTime pool mapped).1) ∧
    (∀ (inp : Input) (s : State) (i : Nat), (afterEmission inp s i).active = false →
      (frame inp s).state.ParticlePool i = s.ParticlePool i ∧
        ((frame inp s).state.ParticlePool i).active = false ∧
        (⟨i, 1⟩ : PointDraw) ∉ (frame inp s).particleDraws) ∧
    (∀ (s : State) (inputs : List Input) (i : Nat), (s.ParticlePool i).active = false →
      (∀ r ∈ frames s inputs, r.clickBurst = false ∧ r.submersionBurst = false) →
      ∀ r ∈ frames s inputs, r.state.ParticlePool i = s.ParticlePool i ∧
        (⟨i, 1⟩ : PointDraw) ∉ r.particleDraws) := by
  have e : ∀ (inp : Input) (s : State), (frame inp s).state.ParticlePool =
      (integrate inp.deltaTime (afterEmission inp s) s.particleVBO).1 := fun _ _ => rfl
  have e2 : ∀ (inp : Input) (s : State),
      (frame inp s).particleDraws = drawLoop 0 (frame inp s).state.ParticlePool :=
    fun _ _ => rfl
  refine ⟨?_, ?_, ?_, ?_, ?_⟩
  · intro inp s i hi ha hy
    have hp : ((frame inp s).state.ParticlePool i).active = false := by
      rw [e, integrate_pool, if_pos ⟨hi, ha⟩, integrateParticle_active, if_pos hy]
    refine ⟨hp, ?_⟩
    rw [e2, mem_drawLoop_zero, hp]
    simp
  · intro inp s i hi ha hy
    have hp : ((frame inp s).state.ParticlePool i).active = true := by
      rw [e, integrate_pool, if_pos ⟨hi, ha⟩, integrateParticle_active, if_neg hy, ha]
    refine ⟨hp, ?_⟩
    rw [e2, mem_drawLoop_zero]
    exact ⟨hi, hp⟩
  · intro deltaTime pool mapped i ha
    have hp : (integrate deltaTime pool mapped).1 i = pool i := by
      rw [integrate_pool]
      simp [ha]
    refine ⟨hp, ?_⟩
    rw [mem_drawLoop_zero, hp]
    simp [ha]
  · intro inp s i ha
    have hsame : afterEmission inp s i = s.ParticlePool i := by
      rcases afterEmission_same_or_active inp s i with h | h
      · exact h
      · rw [ha] at h; cases h
    have hp : (frame inp s).state.ParticlePool i = afterEmission inp s i := by
      rw [e, integrate_pool]
      simp [ha]
    refine ⟨hp.trans hsame, by rw [hp]; exact ha, ?_⟩
    rw [e2, mem_drawLoop_zero, hp]
    simp [ha]
  · intro s inputs
    induction inputs generalizing s with
    | nil =>
      intro i _ _ r hr
      simp [frames] at hr
    | cons inp rest ih =>
      intro i ha hnb r hr
      have h0 := hnb (frame inp s) (by simp [frames])
      have hstep := frame_inactive_of_no_burst inp s i ha h0.1 h0.2
      simp only [frames, List.mem_cons] at hr
      rcases hr with hr | hr
      · subst hr
        exact hstep
      · have ha' : ((frame inp s).state.ParticlePool i).active = false := by
          rw [hstep.1]; exact ha
        have := ih (frame inp s).state i ha'
          (fun r' hr' => hnb r' (by simp [frames, hr'])) r hr
        rw [hstep.1] at this
        exact this

/-- C9. The integration pass leaves a slot that is inactive on entry with the same
position, velocity and flag, leaves the two buffer entries of that slot as they were,
and gives every other slot and the whole buffer the same result whatever position and
velocity the inactive slot holds. -/
theorem integration_skips_inactive_slots (deltaTime : ℚ) (pool : Pool)
    (mapped : FloatBuffer) (i : Nat) (ha : (pool i).active = false) :
    (integrate deltaTime pool mapped).1 i = pool i ∧
    (integrate deltaTime pool mapped).2 (2 * i) = mapped (2 * i) ∧
    (integrate deltaTime pool mapped).2 (2 * i + 1) = mapped (2 * i + 1) ∧
    (∀ (position velocity : Vec2),
      (∀ j, j ≠ i →
        (integrate deltaTime (setSlot pool i ⟨position, velocity, false⟩) mapped).1 j =
          (integrate deltaTime pool mapped).1 j) ∧
      (∀ k, (integrate deltaTime (setSlot pool i ⟨position, velocity, false⟩) mapped).2 k =
          (integrate deltaTime pool mapped).2 k)) := by
  refine ⟨?_, ?_, ?_, ?_⟩
  · rw [integrate_pool]; simp [ha]
  · rw [integrate_buffer_x]; simp [ha]
  · rw [integrate_buffer_y]; simp [ha]
  · intro position velocity
    constructor
    · intro j hj
      rw [integrate_pool, integrate_pool]
      simp [setSlot, hj]
    · intro k
      unfold integrate
      rw [integrateLoop_buffer, integrateLoop_buffer]
      by_cases hk : k / 2 = i
      · rw [hk]
        simp [setSlot, ha]
      · simp [setSlot, hk]

/-- C9, on a pool whose only inactive slot is slot 3. -/
theorem integration_skips_inactive_slots_witness :
    (integrate (1 / 60) (fun j => ⟨⟨0, 0⟩, ⟨1, 1⟩, j != 3⟩) (fun _ => 7)).1 3 =
      ⟨⟨0, 0⟩, ⟨1, 1⟩, false⟩ ∧
    (integrate (1 / 60) (fun j => ⟨⟨0, 0⟩, ⟨1, 1⟩, j != 3⟩) (fun _ => 7)).2 (2 * 3) = 7 ∧
    (integrate (1 / 60) (fun j => ⟨⟨0, 0⟩, ⟨1, 1⟩, j != 3⟩) (fun _ => 7)).2 (2 * 3 + 1) = 7 := by
  obtain ⟨h1, h2, h3, _⟩ := integration_skips_inactive_slots (1 / 60)
    (fun j => ⟨⟨0, 0⟩, ⟨1, 1⟩, j != 3⟩) (fun _ => 7) 3 rfl
  refine ⟨?_, ?_, ?_⟩
  · rw [h1]
    rfl
  · rw [h2]
  · rw [h3]

/-- C10. The wall bounce can turn a particle away from the interior: the active particle
at position.x = 0.995 with velocity.x = -2 and `deltaTime = 0.001` moves to
position.x = 0.993, which still has absolute value at least 0.99, and ends the step with
velocity.x = 2, the sign of its position.x.  In every step the absolute value of
velocity.x is unchanged. -/
theorem wall_bounce_can_point_outward :
    (((integrate 0.001 (fun _ => ⟨⟨0.995, 0⟩, ⟨-2, 0⟩, true⟩) (fun _ => 0)).1 0).position.x
        = 0.993 ∧
      |(0.993 : ℚ)| ≥ 0.99 ∧
      ((integrate 0.001 (fun _ => ⟨⟨0.995, 0⟩, ⟨-2, 0⟩, true⟩) (fun _ => 0)).1 0).velocity.x
        = 2 ∧
      ((integrate 0.001 (fun _ => ⟨⟨0.995, 0⟩, ⟨-2, 0⟩, true⟩) (fun _ => 0)).1 0).active
        = true) ∧
    (∀ (deltaTime : ℚ) (pool : Pool) (mapped : FloatBuffer) (i : Nat),
      |((integrate deltaTime pool mapped).1 i).velocity.x| = |(pool i).velocity.x|) := by
  constructor
  · have hi : (0 : Nat) < MAX_PARTICLES := by decide
    rw [integrate_pool, if_pos ⟨hi, rfl⟩, integrateParticle_position,
      integrateParticle_velocity, integrateParticle_active]
    have h1 : (0.995 : ℚ) + -2 * 0.001 = 0.993 := by norm_num
    have h2 : |(0.993 : ℚ)| ≥ 0.99 := by
      rw [abs_of_nonneg (by norm_num)]; norm_num
    refine ⟨h1, h2, ?_, ?_⟩
    · simp only [h1]
      rw [if_pos h2]; norm_num
    · norm_num
  · intro deltaTime pool mapped i
    rw [integrate_pool]
    split
    · rw [integrateParticle_velocity]
      simp only []
      split
      · exact abs_neg _
      · rfl
    · rfl

/-- C2. In a run of consecutive frames (one or more) with the left mouse button down in
every frame, entered with `wasClicking = false` and `isWet = true`, the branch of the
click burst is entered in the first frame, where the click handling runs the
100-particle spawn loop, and in no later frame, where the click handling leaves the
pool as it found it; cursor position and water level are arbitrary. -/
theorem click_burst_only_on_first_frame (s : State) (inp : Input) (rest : List Input)
    (hw : s.wasClicking = false) (hwet : s.isWet = true)
    (hdown : ∀ x ∈ inp :: rest, leftButtonDown x) :
    (frames s (inp :: rest)).map (fun r => r.clickBurst) =
      true :: List.replicate rest.length false ∧
    (clickBlock inp s).pool =
      (spawnLoop (cursor inp) (clickVelocity inp.rand01) 0 100 0 s.ParticlePool).1 ∧
    (∀ (pre post : List Input) (x : Input), rest = pre ++ x :: post →
      (clickBlock x (run s (inp :: pre))).burst = false ∧
      (clickBlock x (run s (inp :: pre))).pool = (run s (inp :: pre)).ParticlePool) := by
  have hd := hdown inp (by simp)
  have hc := clickBlock_of_leftButtonDown inp s hd
  have hb : (frame inp s).clickBurst = true := by
    show (clickBlock inp s).burst = true
    rw [hc.2.2, hw, hwet]
    rfl
  have hw' : (frame inp s).state.wasClicking = true := hc.1
  have hrest : ∀ x ∈ rest, leftButtonDown x := fun x hx => hdown x (by simp [hx])
  refine ⟨?_, ?_, ?_⟩
  · simp only [frames, List.map_cons, hb]
    rw [frames_clickBurst_of_wasClicking (frame inp s).state rest hw' hrest]
  · unfold clickBlock
    rw [mouseCondition_of_leftButtonDown inp hd]
    simp [hw, hwet, clickSplash]
  · intro pre post x hx
    have hpre : ∀ y ∈ pre, leftButtonDown y := fun y hy => hrest y (by simp [hx, hy])
    have hxd : leftButtonDown x := hrest x (by simp [hx])
    have hrun : (run s (inp :: pre)).wasClicking = true :=
      run_wasClicking (frame inp s).state pre hw' hpre
    refine ⟨?_, clickBlock_pool_of_wasClicking x _ hrun⟩
    rw [(clickBlock_of_leftButtonDown x _ hxd).2.2, hrun]
    rfl

/-- C8, as stated, fails: with the left button down, `isWet` true on entry and the
cursor below the water line, `isWet` is true after the frame and so is the uniform. -/
theorem click_under_water_stays_wet :
    leftButtonDown submergedClickInput ∧
    (uniformState ⟨⟨0, 0⟩, ⟨0, 0⟩, false⟩ true false true).isWet = true ∧
    (frame submergedClickInput
      (uniformState ⟨⟨0, 0⟩, ⟨0, 0⟩, false⟩ true false true)).state.isWet = true ∧
    (frame submergedClickInput
      (uniformState ⟨⟨0, 0⟩, ⟨0, 0⟩, false⟩ true false true)).isWetUniform = true := by
  have h := frame_isWet submergedClickInput
    (uniformState ⟨⟨0, 0⟩, ⟨0, 0⟩, false⟩ true false true)
  have hu : (cursor submergedClickInput).y <
      updateWaterLevel submergedClickInput
        (uniformState ⟨⟨0, 0⟩, ⟨0, 0⟩, false⟩ true false true).waterLevel * 2 - 1 := by
    simp [cursor, updateWaterLevel, submergedClickInput, clickInput, idleInput, uniformState,
      GLFW_KEY_UP, GLFW_KEY_DOWN, GLFW_PRESS]
    norm_num
  rw [if_pos hu] at h
  refine ⟨by decide, rfl, h.1, ?_⟩
  rw [h.2, h.1]

/-- C8, amended. In a frame with the left mouse button down and `isWet` true on entry,
`isWet` after the frame is true exactly when the cursor is below the water line of that
frame (the level after the key handling), so it is false whenever the cursor is at or
above the line; the uniform receives the same value. -/
theorem click_dries_sponge_unless_submerged (inp : Input) (s : State)
    (hdown : leftButtonDown inp) (_hwet : s.isWet = true) :
    ((frame inp s).state.isWet = true ↔
      (cursor inp).y < updateWaterLevel inp s.waterLevel * 2 - 1) ∧
    (¬ ((cursor inp).y < updateWaterLevel inp s.waterLevel * 2 - 1) →
      (frame inp s).state.isWet = false ∧ (frame inp s).isWetUniform = false) ∧
    (frame inp s).isWetUniform = (frame inp s).state.isWet := by
  have h := frame_isWet inp s
  have hc := (clickBlock_of_leftButtonDown inp s hdown).2.1
  by_cases hu : (cursor inp).y < updateWaterLevel inp s.waterLevel * 2 - 1
  · rw [if_pos hu] at h
    exact ⟨by simp [h.1, hu], fun hn => absurd hu hn, h.2⟩
  · rw [if_neg hu, hc] at h
    exact ⟨by simp [h.1, hu], fun _ => ⟨h.1, by rw [h.2, h.1]⟩, h.2⟩

/-- C8 amended, with the cursor at the centre of the window and the water level 0.5. -/
theorem click_dries_sponge_unless_submerged_witness :
    (frame clickInput (uniformState ⟨⟨0, 0⟩, ⟨0, 0⟩, false⟩ true false false)).state.isWet
        = false ∧
    (frame clickInput (uniformState ⟨⟨0, 0⟩, ⟨0, 0⟩, false⟩ true false false)).isWetUniform
        = false :=
  (click_dries_sponge_unless_submerged clickInput
    (uniformState ⟨⟨0, 0⟩, ⟨0, 0⟩, false⟩ true false false) (by decide) rfl).2.1
    (by
      simp [cursor, updateWaterLevel, clickInput, idleInput, uniformState,
        GLFW_KEY_UP, GLFW_KEY_DOWN, GLFW_PRESS]
      norm_num)

/-- C2, on three frames with the button held. -/
theorem click_burst_only_on_first_frame_witness :
    (frames (uniformState ⟨⟨0, 0⟩, ⟨0, 0⟩, false⟩ true false false)
      [clickInput, submergedClickInput, clickInput]).map (fun r => r.clickBurst) =
      [true, false, false] :=
  (click_burst_only_on_first_frame (uniformState ⟨⟨0, 0⟩, ⟨0, 0⟩, false⟩ true false false)
    clickInput [submergedClickInput, clickInput] rfl rfl (by decide)).1

/-- C7. For every state reachable from the start-up state by frames, after one more
frame the particle positions buffer holds, for every slot index `i` below
`MAX_PARTICLES`, active or not, the position.x of slot `i` at float index `2 i` and its
position.y at float index `2 i + 1`, as the frame's integration pass left them; the
same holds in the start-up state itself. -/
theorem buffer_holds_pool_positions (s : State) (h : Reachable s) (inp : Input) (i : Nat)
    (hi : i < MAX_PARTICLES) :
    ((frame inp s).state.particleVBO (2 * i) =
        ((frame inp s).state.ParticlePool i).position.x ∧
      (frame inp s).state.particleVBO (2 * i + 1) =
        ((frame inp s).state.ParticlePool i).position.y) ∧
    (s.particleVBO (2 * i) = (s.ParticlePool i).position.x ∧
      s.particleVBO (2 * i + 1) = (s.ParticlePool i).position.y) :=
  ⟨reachable_buffer _ (Reachable.frame inp s h) i hi, reachable_buffer s h i hi⟩

/-- C7, on the second frame after start-up, at slot 5. -/
theorem buffer_holds_pool_positions_witness :
    (frame submergedClickInput
        (frame clickInput
          (initState (fun _ => ⟨1, 2⟩) (fun _ => ⟨0, 0⟩) (fun _ _ => 0))).state).state.particleVBO
        (2 * 5) =
      ((frame submergedClickInput
        (frame clickInput
          (initState (fun _ => ⟨1, 2⟩) (fun _ => ⟨0, 0⟩)
            (fun _ _ => 0))).state).state.ParticlePool 5).position.x :=
  (buffer_holds_pool_positions _
    (Reachable.frame clickInput _ (Reachable.init (fun _ => ⟨1, 2⟩) (fun _ => ⟨0, 0⟩)
      (fun _ _ => 0)))
    submergedClickInput 5 (by decide)).1.1

/-- C1, on a pool whose free slots are 2, 5 and 9 and a request of two particles: slots 2
and 5 end active at the cursor position, slot 9 and slot 0 are unchanged, and two slots
were activated. -/
theorem burst_activates_lowest_free_slots_witness :
    ((spawnLoop ⟨1 / 4, 1 / 2⟩ (fun _ => ⟨0, 0⟩) 0 2 0
        (fun i => ⟨⟨0, 0⟩, ⟨0, 0⟩, !(i == 2 || i == 5 || i == 9)⟩)).1 2).active = true ∧
    ((spawnLoop ⟨1 / 4, 1 / 2⟩ (fun _ => ⟨0, 0⟩) 0 2 0
        (fun i => ⟨⟨0, 0⟩, ⟨0, 0⟩, !(i == 2 || i == 5 || i == 9)⟩)).1 5).position
      = ⟨1 / 4, 1 / 2⟩ ∧
    (spawnLoop ⟨1 / 4, 1 / 2⟩ (fun _ => ⟨0, 0⟩) 0 2 0
        (fun i => ⟨⟨0, 0⟩, ⟨0, 0⟩, !(i == 2 || i == 5 || i == 9)⟩)).1 9
      = ⟨⟨0, 0⟩, ⟨0, 0⟩, false⟩ ∧
    (spawnLoop ⟨1 / 4, 1 / 2⟩ (fun _ => ⟨0, 0⟩) 0 2 0
        (fun i => ⟨⟨0, 0⟩, ⟨0, 0⟩, !(i == 2 || i == 5 || i == 9)⟩)).1 0
      = ⟨⟨0, 0⟩, ⟨0, 0⟩, true⟩ :=
  have h := burst_activates_lowest_free_slots.1 ⟨1 / 4, 1 / 2⟩ (fun _ => ⟨0, 0⟩) 2 0
    (fun i => ⟨⟨0, 0⟩, ⟨0, 0⟩, !(i == 2 || i == 5 || i == 9)⟩)
  ⟨(h.1 2 (by decide) rfl (by decide)).1, (h.1 5 (by decide) rfl (by decide)).2,
    h.2.1 9 (by decide), h.2.1 0 (by decide)⟩

/-- C4, on a particle just above the lower bound and falling: after an idle frame the
slot is inactive and not drawn. -/
theorem expired_particle_is_inactive_until_burst_witness :
    ((frame idleInput
      (uniformState ⟨⟨0, -0.995⟩, ⟨0, -1⟩, true⟩ false false false)).state.ParticlePool
        0).active = false ∧
    (⟨0, 1⟩ : PointDraw) ∉ (frame idleInput
      (uniformState ⟨⟨0, -0.995⟩, ⟨0, -1⟩, true⟩ false false false)).particleDraws := by
  have hidle : afterEmission idleInput
      (uniformState ⟨⟨0, -0.995⟩, ⟨0, -1⟩, true⟩ false false false) =
      fun _ => ⟨⟨0, -0.995⟩, ⟨0, -1⟩, true⟩ := by
    apply afterEmission_of_no_burst
    · rfl
    · show (submersionBlock _ _ _ _).burst = false
      have hu : underWater idleInput (updateWaterLevel idleInput
          (uniformState ⟨⟨0, -0.995⟩, ⟨0, -1⟩, true⟩ false false false).waterLevel) = false := by
        simp [underWater, cursor, updateWaterLevel, idleInput, uniformState,
          GLFW_KEY_UP, GLFW_KEY_DOWN, GLFW_PRESS]
        norm_num
      unfold submersionBlock
      rw [hu]
      rfl
  exact expired_particle_is_inactive_until_burst.1 idleInput
    (uniformState ⟨⟨0, -0.995⟩, ⟨0, -1⟩, true⟩ false false false) 0 (by decide)
    (by rw [hidle])
    (by
      rw [hidle]
      simp [idleInput]
      norm_num)

end SquishableSponge
